import Mathlib

/-!
Shallow embedding of `src/spectest.go` from the
instaclustr/sample-GoCql-Speculative-Execution repository.

The Go program defines
  * `hostMetrics` — a record of cumulative attempts and cumulative latency
    (in milliseconds) for one host;
  * `testQueryObserver.ObserveQuery` — folds one observed query event into
    the metrics map (only when the event carries no error);
  * `testQueryObserver.GetMetrics` — prints, per host, the attempt count and
    the truncating-integer-division average latency;
  * `RT` — a retry policy whose `Attempt` allows a retry while
    `q.Attempts() <= rt.num`, and whose `GetRetryType` always answers
    `Rethrow`.

Go `int`/`int64` values are modelled as `Int` (the quantities involved stay
far from the 64-bit overflow boundary), Go integer division (which truncates
toward zero) as `Int.tdiv`, the Go map as an association list with unique
update, and the division-by-zero runtime panic of `GetMetrics` as the
`Except.error` branch of `getSummary`.
-/

namespace SpecExec

/-- Go struct `hostMetrics`: cumulative `attempts` and `latency`
(milliseconds), both Go `int`. -/
structure HostMetrics where
  attempts : Int
  latency : Int
deriving DecidableEq, Repr

/-- The observer's `metrics map[string]*hostMetrics`, modelled as an
association list keyed by the host's connect address. -/
abbrev Store := List (String × HostMetrics)

/-- One `gocql.ObservedQuery` as consumed by `ObserveQuery`: the host's
connect-address string, `q.Metrics.Attempts`, `q.Metrics.TotalLatency`
(nanoseconds, Go `int64`) and `q.Err` (`none` = nil error). -/
structure ObservedQuery where
  host : String
  attempts : Int
  totalLatency : Int
  err : Option String
deriving DecidableEq, Repr

/-- Map read `o.metrics[host]` (first binding wins; bindings are unique in
every store the program builds). -/
def lookupHost : Store → String → Option HostMetrics
  | [], _ => none
  | (k, v) :: rest, h => if k = h then some v else lookupHost rest h

/-- Map write `o.metrics[host] = ...`: replace the binding when present,
append it otherwise. -/
def setHost : Store → String → HostMetrics → Store
  | [], h, v => [(h, v)]
  | (k, w) :: rest, h, v =>
      if k = h then (h, v) :: rest else (k, w) :: setHost rest h v

/-- The local `curAttempts` of `ObserveQuery`: `0` when the host has no
entry, the entry's attempts otherwise. -/
def curAttemptsOf : Option HostMetrics → Int
  | none => 0
  | some c => c.attempts

/-- The local `curLatency` of `ObserveQuery`. -/
def curLatencyOf : Option HostMetrics → Int
  | none => 0
  | some c => c.latency

/-- Attempt count currently recorded for `h` (`curAttempts` after the nil
check), `0` when absent. -/
def priorAttempts (m : Store) (h : String) : Int :=
  curAttemptsOf (lookupHost m h)

/-- Latency currently recorded for `h`, `0` when absent. -/
def priorLatency (m : Store) (h : String) : Int :=
  curLatencyOf (lookupHost m h)

/-- `testQueryObserver.ObserveQuery` (src/spectest.go lines 30–46), minus
the verbose `fmt.Printf` side channel: when `q.Err == nil` the host's entry
becomes `{attempts: q.Metrics.Attempts + curAttempts,
latency: curLatency + int(q.Metrics.TotalLatency/1000000)}`; otherwise the
map is untouched. -/
def observeQuery (m : Store) (q : ObservedQuery) : Store :=
  let curMetric := lookupHost m q.host
  let curAttempts := curAttemptsOf curMetric
  let curLatency := curLatencyOf curMetric
  if q.err = none then
    setHost m q.host
      ⟨q.attempts + curAttempts, curLatency + Int.tdiv q.totalLatency 1000000⟩
  else
    m

/-- Deliver a sequence of events to the observer, left to right. -/
def runEvents : Store → List ObservedQuery → Store
  | m, [] => m
  | m, q :: rest => runEvents (observeQuery m q) rest

/-- One output line of `GetMetrics`:
`Host: <id>, Attempts: <n>, Avg Latency: <ms>ms`, the average being Go's
truncating integer division `m.latency / m.attempts`. -/
def summaryLine (h : String) (hm : HostMetrics) : String :=
  "Host: " ++ h ++ ", Attempts: " ++ toString hm.attempts ++
    ", Avg Latency: " ++ toString (Int.tdiv hm.latency hm.attempts) ++ "ms"

/-- `testQueryObserver.GetMetrics` (src/spectest.go lines 48–52): one line
per map entry; the division `m.latency/m.attempts` panics in Go when
`m.attempts == 0`, modelled as `Except.error ()`. -/
def getSummary : Store → Except Unit (List String)
  | [] => .ok []
  | (h, hm) :: rest =>
      if hm.attempts = 0 then .error ()
      else
        match getSummary rest with
        | .error e => .error e
        | .ok ls => .ok (summaryLine h hm :: ls)

/-- Sum of the `attempts` fields over all entries of the store. -/
def sumAttempts : Store → Int
  | [] => 0
  | (_, hm) :: rest => hm.attempts + sumAttempts rest

/-- Sum of the attempt counts reported by the success (nil-error) events of
a sequence; error events contribute `0`. -/
def successAttemptSum : List ObservedQuery → Int
  | [] => 0
  | q :: rest => (if q.err = none then q.attempts else 0) + successAttemptSum rest

/-- Sum of the millisecond latency contributions of the success events of a
sequence that target host `h`; error events contribute `0`. -/
def successLatencySum : List ObservedQuery → String → Int
  | [], _ => 0
  | q :: rest, h =>
      (if q.err = none ∧ q.host = h then Int.tdiv q.totalLatency 1000000 else 0)
        + successLatencySum rest h

/-- Go struct `RT`: the retry policy, configured in `main` with `num: 3`. -/
structure RT where
  num : Int
deriving DecidableEq, Repr

/-- `RT.Attempt` (src/spectest.go lines 59–61): `q.Attempts() <= rt.num`. -/
def RTAttempt (rt : RT) (attempts : Int) : Bool :=
  decide (attempts ≤ rt.num)

/-- `gocql.RetryType`. -/
inductive RetryType where
  | retry
  | retryNextHost
  | ignore
  | rethrow
deriving DecidableEq, Repr

/-- `RT.GetRetryType` (src/spectest.go lines 63–65): every error gets
`gocql.Rethrow`. -/
def RTGetRetryType (_rt : RT) (_err : Option String) : RetryType :=
  RetryType.rethrow

/-- Attempt counter of a logical query whose every attempt errors: after a
failed attempt the driver consults `RT.Attempt` with the attempts made so
far and, while it answers `true`, makes one more attempt. `fuel` bounds the
recursion; `a` is the number of attempts already made (the first attempt
happens before the policy is first consulted). -/
def retryLoop (rt : RT) : Nat → Int → Int
  | 0, a => a
  | fuel + 1, a => if RTAttempt rt a then retryLoop rt fuel (a + 1) else a

/-- Total attempts an always-failing logical query makes before the policy
stops it (starting from the one attempt that precedes any consultation). -/
def attemptsUntilStop (rt : RT) (fuel : Nat) : Int :=
  retryLoop rt fuel 1

end SpecExec

namespace SpecExec

/-! ## Basic lemmas about the store operations -/

theorem lookup_setHost (m : Store) (k h : String) (v : HostMetrics) :
    lookupHost (setHost m k v) h = if k = h then some v else lookupHost m h := by
  induction m with
  | nil => simp [setHost, lookupHost]
  | cons p rest ih =>
    obtain ⟨a, w⟩ := p
    simp only [setHost]
    by_cases hak : a = k
    · subst hak
      by_cases hah : a = h <;> simp [lookupHost, hah]
    · simp only [if_neg hak, lookupHost, ih]
      by_cases hah : a = h
      · subst hah
        simp [hak, Ne.symm hak]
      · simp [hah]

theorem sumAttempts_setHost (m : Store) (h : String) (v : HostMetrics) :
    sumAttempts (setHost m h v) = sumAttempts m + v.attempts - priorAttempts m h := by
  induction m with
  | nil => simp [setHost, sumAttempts, priorAttempts, lookupHost, curAttemptsOf]
  | cons p rest ih =>
    obtain ⟨a, w⟩ := p
    by_cases hah : a = h
    · subst hah
      simp [setHost, sumAttempts, priorAttempts, lookupHost, curAttemptsOf]
      ring
    · simp [setHost, hah, sumAttempts, ih, priorAttempts, lookupHost, curAttemptsOf]
      ring

/-! ## Lemmas about one `ObserveQuery` step -/

theorem observeQuery_err (m : Store) (q : ObservedQuery) (h : q.err ≠ none) :
    observeQuery m q = m := by
  simp [observeQuery, h]

theorem observeQuery_ok (m : Store) (q : ObservedQuery) (h : q.err = none) :
    observeQuery m q =
      setHost m q.host
        ⟨q.attempts + priorAttempts m q.host,
          priorLatency m q.host + Int.tdiv q.totalLatency 1000000⟩ := by
  simp [observeQuery, h, priorAttempts, priorLatency]

theorem lookup_observeQuery_ok (m : Store) (q : ObservedQuery) (h : q.err = none) :
    lookupHost (observeQuery m q) q.host =
      some ⟨q.attempts + priorAttempts m q.host,
        priorLatency m q.host + Int.tdiv q.totalLatency 1000000⟩ := by
  rw [observeQuery_ok m q h, lookup_setHost]
  simp

theorem lookup_observeQuery_other (m : Store) (q : ObservedQuery) (h : String)
    (hne : q.host ≠ h) : lookupHost (observeQuery m q) h = lookupHost m h := by
  by_cases herr : q.err = none
  · rw [observeQuery_ok m q herr, lookup_setHost, if_neg hne]
  · rw [observeQuery_err m q herr]

theorem sumAttempts_observeQuery (m : Store) (q : ObservedQuery) :
    sumAttempts (observeQuery m q) =
      sumAttempts m + (if q.err = none then q.attempts else 0) := by
  by_cases herr : q.err = none
  · rw [observeQuery_ok m q herr, sumAttempts_setHost, if_pos herr]
    ring
  · rw [observeQuery_err m q herr, if_neg herr]
    ring

theorem priorLatency_observeQuery (m : Store) (q : ObservedQuery) (h : String) :
    priorLatency (observeQuery m q) h =
      priorLatency m h +
        (if q.err = none ∧ q.host = h then Int.tdiv q.totalLatency 1000000 else 0) := by
  by_cases herr : q.err = none
  · rw [observeQuery_ok m q herr]
    unfold priorLatency
    rw [lookup_setHost]
    by_cases hh : q.host = h
    · subst hh
      simp [herr, curLatencyOf]
    · simp [hh, herr]
  · rw [observeQuery_err m q herr]
    simp [herr]

theorem priorAttempts_observeQuery (m : Store) (q : ObservedQuery) (h : String) :
    priorAttempts (observeQuery m q) h =
      priorAttempts m h + (if q.err = none ∧ q.host = h then q.attempts else 0) := by
  by_cases herr : q.err = none
  · rw [observeQuery_ok m q herr]
    unfold priorAttempts
    rw [lookup_setHost]
    by_cases hh : q.host = h
    · subst hh
      simp [herr, curAttemptsOf]
      ring
    · simp [hh, herr]
  · rw [observeQuery_err m q herr]
    simp [herr]

/-! ## Lemmas about event sequences -/

theorem sumAttempts_runEvents (es : List ObservedQuery) (m : Store) :
    sumAttempts (runEvents m es) = sumAttempts m + successAttemptSum es := by
  induction es generalizing m with
  | nil => simp [runEvents, successAttemptSum]
  | cons q rest ih =>
    simp only [runEvents, successAttemptSum, ih, sumAttempts_observeQuery]
    ring

theorem priorLatency_runEvents (es : List ObservedQuery) (m : Store) (h : String) :
    priorLatency (runEvents m es) h = priorLatency m h + successLatencySum es h := by
  induction es generalizing m with
  | nil => simp [runEvents, successLatencySum]
  | cons q rest ih =>
    simp only [runEvents, successLatencySum, ih, priorLatency_observeQuery]
    ring

theorem attempts_pos_lookup (m : Store)
    (hm : ∀ h v, lookupHost m h = some v → 1 ≤ v.attempts) (h : String) :
    0 ≤ priorAttempts m h := by
  unfold priorAttempts
  cases hl : lookupHost m h with
  | none => simp [curAttemptsOf]
  | some v =>
    have := hm h v hl
    simp only [curAttemptsOf]
    omega

theorem attempts_pos_observeQuery (m : Store) (q : ObservedQuery)
    (hq : q.err = none → 1 ≤ q.attempts)
    (hm : ∀ h v, lookupHost m h = some v → 1 ≤ v.attempts) :
    ∀ h v, lookupHost (observeQuery m q) h = some v → 1 ≤ v.attempts := by
  intro h v hlook
  by_cases herr : q.err = none
  · by_cases hh : q.host = h
    · subst hh
      rw [lookup_observeQuery_ok m q herr] at hlook
      cases hlook
      have h1 := hq herr
      have h0 := attempts_pos_lookup m hm q.host
      simp only
      omega
    · rw [lookup_observeQuery_other m q h hh] at hlook
      exact hm h v hlook
  · rw [observeQuery_err m q herr] at hlook
    exact hm h v hlook

theorem attempts_pos_runEvents (es : List ObservedQuery)
    (hes : ∀ q ∈ es, q.err = none → 1 ≤ q.attempts) (m : Store)
    (hm : ∀ h v, lookupHost m h = some v → 1 ≤ v.attempts) :
    ∀ h v, lookupHost (runEvents m es) h = some v → 1 ≤ v.attempts := by
  induction es generalizing m with
  | nil => exact hm
  | cons q rest ih =>
    simp only [runEvents]
    exact ih (fun p hp => hes p (List.mem_cons_of_mem q hp)) (observeQuery m q)
      (attempts_pos_observeQuery m q (hes q (List.mem_cons_self q rest)) hm)

/-! ## Lemmas about the summary -/

theorem getSummary_ok (m : Store) (hm : ∀ p ∈ m, p.2.attempts ≠ 0) :
    getSummary m = .ok (m.map fun p => summaryLine p.1 p.2) := by
  induction m with
  | nil => simp [getSummary]
  | cons p rest ih =>
    obtain ⟨h, v⟩ := p
    have hv : v.attempts ≠ 0 := hm (h, v) (List.mem_cons_self _ _)
    have hrest := ih (fun p hp => hm p (List.mem_cons_of_mem _ hp))
    simp [getSummary, hv, hrest]

theorem getSummary_err (m : Store) (h : String) (v : HostMetrics)
    (hmem : (h, v) ∈ m) (hz : v.attempts = 0) :
    getSummary m = .error () := by
  induction m with
  | nil => cases hmem
  | cons p rest ih =>
    obtain ⟨a, w⟩ := p
    rcases List.mem_cons.mp hmem with heq | hmem'
    · cases heq
      simp [getSummary, hz]
    · by_cases hw : w.attempts = 0
      · simp [getSummary, hw]
      · simp [getSummary, hw, ih hmem']

theorem tdiv_million_zero (l : Int) (h0 : 0 ≤ l) (h1 : l < 1000000) :
    Int.tdiv l 1000000 = 0 := by
  rw [Int.tdiv_eq_ediv h0 (by omega)]
  exact Int.ediv_eq_zero_of_lt h0 h1

/-! ## Claim theorems -/

/-- C1: for every state of the metrics store and every observed query event
whose error field is non-nil, `ObserveQuery` leaves the store completely
unchanged — no entry is created for the event's host and no existing entry
is modified. -/
theorem observer_ignores_error_events (m : Store) (q : ObservedQuery)
    (h : q.err ≠ none) : observeQuery m q = m :=
  observeQuery_err m q h

/-- Witness: an error event against a one-entry store leaves it intact. -/
theorem observer_ignores_error_events_witness :
    observeQuery [("10.0.0.1", ⟨1, 7⟩)] ⟨"10.0.0.1", 2, 5000000, some "timeout"⟩
      = [("10.0.0.1", ⟨1, 7⟩)] :=
  observer_ignores_error_events _ _ (by decide)

/-- C2: a success event for host `h` reporting `a` attempts and total
latency `l` updates the store entry for `h` to
`(a0 + a, l0 + l-in-milliseconds)` with `(a0, l0)` the prior entry (or
`(0,0)` when absent); over any event sequence delivered to the empty store
the attempts recorded in the store sum to the attempts reported by the
success events, error events contributing zero. -/
theorem observer_success_merge_and_attempt_sum :
    (∀ (m : Store) (q : ObservedQuery), q.err = none →
        lookupHost (observeQuery m q) q.host =
          some ⟨priorAttempts m q.host + q.attempts,
            priorLatency m q.host + Int.tdiv q.totalLatency 1000000⟩)
    ∧ (∀ es : List ObservedQuery,
        sumAttempts (runEvents [] es) = successAttemptSum es)
    ∧ (∀ (q : ObservedQuery) (es : List ObservedQuery), q.err ≠ none →
        successAttemptSum (q :: es) = successAttemptSum es) := by
  refine ⟨?_, ?_, ?_⟩
  · intro m q herr
    rw [lookup_observeQuery_ok m q herr]
    simp only [Option.some.injEq, HostMetrics.mk.injEq]
    exact ⟨by ring, trivial⟩
  · intro es
    simpa [sumAttempts] using sumAttempts_runEvents es []
  · intro q es hq
    simp [successAttemptSum, hq]

/-- Witness: a 2-attempt, 5 ms success event merged into the empty store. -/
theorem observer_success_merge_and_attempt_sum_witness :
    lookupHost (observeQuery [] ⟨"10.0.0.1", 2, 5000000, none⟩) "10.0.0.1"
      = some ⟨2, 5⟩ :=
  (observer_success_merge_and_attempt_sum.1 []
    ⟨"10.0.0.1", 2, 5000000, none⟩ rfl).trans (by decide)

/-- C3 (code evaluation at the failing input): on a store whose entry has
`attempts = 0`, `GetMetrics` hits the division `m.latency/m.attempts` with a
zero divisor — the summary computation fails with a division-by-zero
condition instead of skipping the host or reporting N/A. -/
theorem getSummary_zero_attempts_diverges :
    getSummary [("10.0.0.1", ⟨0, 0⟩)] = .error () := rfl

/-- C4 counterexample: with `num = 3`, `RT.Attempt` still answers `true`
for a query that has already made 3 attempts, so the policy does permit a
4th attempt; against an always-erroring attempt source the loop performs 4
attempts, not 3. -/
theorem retry_budget_counterexample :
    RTAttempt ⟨3⟩ 3 = true ∧ attemptsUntilStop ⟨3⟩ 100 = 4 := by
  exact ⟨by decide, by decide⟩

/-- C4 amended: with the retry policy configured with `num = 3` and every
attempt erroring, the logical query fails after exactly 4 attempts; the
policy permits a further attempt exactly while at most 3 attempts have been
made (`Attempt` returns `false` iff at least 4 attempts were already made),
so a 4th attempt is permitted and a 5th never is. -/
theorem retry_budget_allows_four_attempts :
    attemptsUntilStop ⟨3⟩ 100 = 4
      ∧ ∀ a : Int, RTAttempt ⟨3⟩ a = false ↔ 4 ≤ a := by
  refine ⟨by decide, ?_⟩
  intro a
  simp only [RTAttempt, decide_eq_false_iff_not, not_le]
  omega

/-- C5: the retry policy permits a further attempt exactly when the number
of attempts made so far is at most the configured budget
(`Attempt` answers `true` iff `q.Attempts() ≤ rt.num`), is a pure function
of that count, and `GetRetryType` returns the same disposition
(`Rethrow`) for every error. -/
theorem retry_policy_pure (rt : RT) (a : Int) :
    (RTAttempt rt a = true ↔ a ≤ rt.num)
      ∧ (∀ e1 e2 : Option String, RTGetRetryType rt e1 = RTGetRetryType rt e2)
      ∧ RTGetRetryType rt (some "any") = RetryType.rethrow := by
  refine ⟨?_, fun _ _ => rfl, rfl⟩
  simp [RTAttempt]

/-- C6 counterexample: on the store `[("10.0.0.2", ⟨0, 7⟩)]` the summary
does not produce the claimed one line for the host — it fails on the zero
divisor, so the claim does not hold for every store state. -/
theorem getSummary_counterexample_zero_entry :
    getSummary [("10.0.0.2", ⟨0, 7⟩)] = .error () := rfl

/-- C6 amended: for every store state whose entries all have nonzero
attempts, `GetMetrics` prints exactly one line per host present, of the
form `Host: <id>, Attempts: <n>, Avg Latency: <ms>ms` with the average the
integer division of the latency by the attempts; in particular an entry
with attempts 4 and latency 400 reports an average of 100 ms. -/
theorem getSummary_line_per_host :
    (∀ m : Store, (∀ p ∈ m, p.2.attempts ≠ 0) →
        getSummary m = .ok (m.map fun p => summaryLine p.1 p.2))
      ∧ summaryLine "10.0.0.1" ⟨4, 400⟩ =
          "Host: 10.0.0.1, Attempts: 4, Avg Latency: 100ms" :=
  ⟨getSummary_ok, rfl⟩

/-- Witness: the summary of a concrete two-host store, line by line. -/
theorem getSummary_line_per_host_witness :
    getSummary [("10.0.0.1", ⟨4, 400⟩), ("10.0.0.2", ⟨2, 33⟩)] =
      .ok ["Host: 10.0.0.1, Attempts: 4, Avg Latency: 100ms",
        "Host: 10.0.0.2, Attempts: 2, Avg Latency: 16ms"] :=
  (getSummary_line_per_host.1 [("10.0.0.1", ⟨4, 400⟩), ("10.0.0.2", ⟨2, 33⟩)]
    (by decide)).trans (by rfl)

/-- C7: starting from the empty store, after any sequence of events whose
success events report at least one attempt, every entry present in the
store has an attempt count of at least 1, and its latency total is exactly
the sum of the millisecond contributions of the nil-error events for that
host (error events contribute nothing). -/
theorem observer_store_invariant (es : List ObservedQuery)
    (hes : ∀ q ∈ es, q.err = none → 1 ≤ q.attempts) :
    ∀ h v, lookupHost (runEvents [] es) h = some v →
      1 ≤ v.attempts ∧ v.latency = successLatencySum es h := by
  intro h v hl
  refine ⟨attempts_pos_runEvents es hes [] ?_ h v hl, ?_⟩
  · intro h' v' hv'
    simp [lookupHost] at hv'
  · have hp := priorLatency_runEvents es [] h
    unfold priorLatency at hp
    rw [hl] at hp
    simpa [curLatencyOf, lookupHost] using hp

/-- Witness: the invariant at the store produced by one success and one
error event. -/
theorem observer_store_invariant_witness :
    1 ≤ (HostMetrics.mk 2 5).attempts
      ∧ (HostMetrics.mk 2 5).latency =
          successLatencySum
            [⟨"10.0.0.1", 2, 5000000, none⟩, ⟨"10.0.0.1", 1, 3000000, some "x"⟩]
            "10.0.0.1" :=
  observer_store_invariant
    [⟨"10.0.0.1", 2, 5000000, none⟩, ⟨"10.0.0.1", 1, 3000000, some "x"⟩]
    (by decide) "10.0.0.1" ⟨2, 5⟩ (by decide)

/-- C8: `ObserveQuery` is not idempotent — delivering the same success
event twice leaves the event's host with the prior entry plus exactly twice
the event's attempts and twice its millisecond latency contribution. -/
theorem observer_not_idempotent (m : Store) (q : ObservedQuery)
    (h : q.err = none) :
    lookupHost (observeQuery (observeQuery m q) q) q.host =
      some ⟨priorAttempts m q.host + 2 * q.attempts,
        priorLatency m q.host + 2 * Int.tdiv q.totalLatency 1000000⟩ := by
  rw [lookup_observeQuery_ok _ q h, priorAttempts_observeQuery,
    priorLatency_observeQuery]
  simp only [h, and_self, if_true, Option.some.injEq, HostMetrics.mk.injEq,
    true_and, and_true]
  constructor <;> ring

/-- Witness: double delivery of a 2-attempt, 5 ms success event to the
empty store yields the entry `(4, 10)`. -/
theorem observer_not_idempotent_witness :
    lookupHost
        (observeQuery (observeQuery [] ⟨"10.0.0.1", 2, 5000000, none⟩)
          ⟨"10.0.0.1", 2, 5000000, none⟩) "10.0.0.1" = some ⟨4, 10⟩ :=
  (observer_not_idempotent [] ⟨"10.0.0.1", 2, 5000000, none⟩ rfl).trans
    (by decide)

/-- C10: latency is accumulated in whole milliseconds by truncating integer
division — a success event adds `TotalLatency tdiv 1000000` to the host's
latency; for a nonnegative event latency this equals the floor division by
1000000, so an event below one millisecond contributes 0; and the reported
average is likewise a truncating division (latency 100 over 3 attempts
reports 33 ms). -/
theorem latency_truncating_division :
    (∀ (m : Store) (q : ObservedQuery), q.err = none →
        priorLatency (observeQuery m q) q.host =
          priorLatency m q.host + Int.tdiv q.totalLatency 1000000)
    ∧ (∀ l : Int, 0 ≤ l → Int.tdiv l 1000000 = l / 1000000)
    ∧ (∀ (m : Store) (q : ObservedQuery),
        q.err = none → 0 ≤ q.totalLatency → q.totalLatency < 1000000 →
          priorLatency (observeQuery m q) q.host = priorLatency m q.host)
    ∧ getSummary [("10.0.0.3", ⟨3, 100⟩)] =
        .ok ["Host: 10.0.0.3, Attempts: 3, Avg Latency: 33ms"] := by
  refine ⟨?_, ?_, ?_, rfl⟩
  · intro m q herr
    rw [priorLatency_observeQuery]
    simp [herr]
  · intro l hl
    exact Int.tdiv_eq_ediv hl (by omega)
  · intro m q herr h0 h1
    rw [priorLatency_observeQuery]
    simp [herr, tdiv_million_zero q.totalLatency h0 h1]

/-- Witness: a 999999 ns success event leaves the recorded latency of its
host unchanged. -/
theorem latency_truncating_division_witness :
    priorLatency (observeQuery [] ⟨"10.0.0.1", 1, 999999, none⟩) "10.0.0.1" =
      priorLatency [] "10.0.0.1" :=
  latency_truncating_division.2.2.1 [] ⟨"10.0.0.1", 1, 999999, none⟩ rfl
    (by decide) (by decide)

end SpecExec
